import Mathlib

/-!
Verification of the STL loading pipeline of this repository
(`src/stlloader.h`, `src/stlloader.cpp`).

Embedding conventions:

* `float` scalars are embedded as exact rationals (`ℚ`).  All arithmetic the
  source performs on floats (sums, products, min/max, comparisons) is modelled
  exactly; decimal literals of the source (`1e-10f`, `1e-12f`, `0.001f`,
  `1e-6f`, `2.0f`) are taken at their exact decimal value.  `FLT_MAX` is the
  exact value of the largest finite `float`, `2^128 - 2^104`.
* NaN and infinities, which the source tests with `qIsNaN` / `qIsInf` on
  values freshly decoded from the file (never on values it computed itself),
  are represented by the carrier `F` below; a file byte pattern is decoded
  into `F` by an exact IEEE-754 binary32 decoder.
* A file on disk is a list of bytes (`List Nat`, each entry < 256).  The
  text-mode view a `QTextStream` presents to the ASCII parser (lines split,
  tokenised on whitespace, each token optionally parsing as a float with
  `QString::toFloat`) is supplied alongside the raw bytes as part of the file
  model, since the claims under verification quantify over the outcome of
  tokenisation and float parsing rather than over Qt's literal syntax.
* `QDataStream` read semantics are modelled faithfully: a read past the end
  of the data yields the value zero and latches a sticky error status, which
  the source inspects with `stream.status()`.
* The single place where the source leaves the rationals is the rescaling of
  emitted normals to unit length (`QVector3D::normalize`), an irrational
  operation.  The embedding keeps the chosen normal unscaled (a positive
  scalar multiple of the source's value) and no property proved below
  depends on a normal's magnitude, only on which normal is chosen and on
  vertex positions.
-/

/-- Component-wise 3-vector over exact rationals, embedding `QVector3D`. -/
structure Vec3 where
  x : ℚ
  y : ℚ
  z : ℚ
deriving DecidableEq

namespace Vec3

def add (a b : Vec3) : Vec3 := ⟨a.x + b.x, a.y + b.y, a.z + b.z⟩

def sub (a b : Vec3) : Vec3 := ⟨a.x - b.x, a.y - b.y, a.z - b.z⟩

def neg (a : Vec3) : Vec3 := ⟨-a.x, -a.y, -a.z⟩

def smul (s : ℚ) (a : Vec3) : Vec3 := ⟨s * a.x, s * a.y, s * a.z⟩

def zero : Vec3 := ⟨0, 0, 0⟩

/-- `QVector3D::lengthSquared`. -/
def lengthSquared (a : Vec3) : ℚ := a.x * a.x + a.y * a.y + a.z * a.z

/-- `QVector3D::crossProduct`. -/
def cross (a b : Vec3) : Vec3 :=
  ⟨a.y * b.z - a.z * b.y, a.z * b.x - a.x * b.z, a.x * b.y - a.y * b.x⟩

end Vec3

instance : Add Vec3 := ⟨Vec3.add⟩

instance : Sub Vec3 := ⟨Vec3.sub⟩

instance : Neg Vec3 := ⟨Vec3.neg⟩

/-- Value of one `float` as read from a file: a finite rational, or one of
the non-finite IEEE-754 classes the source screens out with
`qIsNaN` / `qIsInf`. -/
inductive F where
  | val : ℚ → F
  | nan : F
  | inf : F
  | ninf : F
deriving DecidableEq

namespace F

/-- `qIsNaN x || qIsInf x`, the corruption test the source applies. -/
def bad : F → Bool
  | val _ => false
  | _ => true

/-- The rational carried by a finite value (the source only uses values it
has already checked to be finite). -/
def toQ : F → ℚ
  | val q => q
  | _ => 0

end F

/-- Byte access with the out-of-range default 0 (only exercised in-range by
the definitions below, which guard every access by a length test first). -/
def byteAt (bs : List Nat) (i : Nat) : Nat := bs.getD i 0

/-- Little-endian 16-bit read, as `QDataStream` with `LittleEndian` order. -/
def readU16LE (bs : List Nat) (off : Nat) : Nat :=
  byteAt bs off + 256 * byteAt bs (off + 1)

/-- Little-endian 32-bit read, as `QDataStream` with `LittleEndian` order. -/
def readU32LE (bs : List Nat) (off : Nat) : Nat :=
  byteAt bs off + 256 * byteAt bs (off + 1) +
    65536 * byteAt bs (off + 2) + 16777216 * byteAt bs (off + 3)

/-- Exact IEEE-754 binary32 decoding of a 32-bit pattern: sign, 8 exponent
bits, 23 mantissa bits; exponent 255 encodes infinities and NaNs, exponent 0
the subnormals.  The all-zero significand patterns (`±0.0`) are given their
value 0 directly (the subnormal formula yields the same rational). -/
def decodeF32bits (bits : Nat) : F :=
  let sign : Nat := bits / 2 ^ 31
  let expo : Nat := bits / 2 ^ 23 % 256
  let mant : Nat := bits % 2 ^ 23
  if expo = 255 then
    if mant = 0 then (if sign = 1 then F.ninf else F.inf) else F.nan
  else if expo = 0 ∧ mant = 0 then F.val 0
  else
    let mag : ℚ :=
      if expo = 0 then (mant : ℚ) / 2 ^ 149
      else (2 ^ 23 + mant : ℚ) * 2 ^ expo / 2 ^ 150
    F.val (if sign = 1 then -mag else mag)

/-- One single-precision float read from the byte stream (little-endian,
`SinglePrecision`). -/
def readF32LE (bs : List Nat) (off : Nat) : F :=
  decodeF32bits (readU32LE bs off)

/-- The eight outcomes of `STLLoader::LoadResult`. -/
inductive LoadResult where
  | Success
  | FileNotFound
  | CannotOpenFile
  | InvalidFormat
  | CorruptedFile
  | EmptyFile
  | UnsupportedFormat
  | ReadError
deriving DecidableEq

/-- The three outcomes of `STLLoader::STLFormat`. -/
inductive STLFormat where
  | Unknown
  | Binary
  | ASCII
deriving DecidableEq

namespace STLLoader

/-- `BINARY_STL_HEADER_SIZE`. -/
def headerSize : Nat := 80

/-- `BINARY_STL_TRIANGLE_SIZE`. -/
def triangleSize : Nat := 50

/-- `STLLoader::isBinarySTL`: the file must be at least 84 bytes, and the
little-endian `uint32` at offset 80 must predict the exact file size with
`expected = 84 + 50 * N`, where the product `N * 50` is computed in C++
`quint32` arithmetic (it wraps modulo `2^32`, as does the subsequent sum),
and `0 < N < 50000000` must hold. -/
def isBinarySTL (bs : List Nat) : Bool :=
  if bs.length < headerSize + 4 then false
  else
    let triangleCount := readU32LE bs 80
    let expectedSize := (headerSize + 4 + triangleCount * triangleSize % 2 ^ 32) % 2 ^ 32
    decide (bs.length = expectedSize) && decide (0 < triangleCount) &&
      decide (triangleCount < 50000000)

/-- Whitespace in the sense of `QString::trimmed` (the ASCII part of
`QChar::isSpace`): space, tab, newline, vertical tab, form feed, carriage
return. -/
def isSpaceByte (b : Nat) : Bool :=
  b = 32 || b = 9 || b = 10 || b = 11 || b = 12 || b = 13

/-- Lowercasing of one ASCII byte, as `QString::toLower` acts on it. -/
def toLowerByte (b : Nat) : Nat :=
  if 65 ≤ b ∧ b ≤ 90 then b + 32 else b

/-- The first line of the file as `QTextStream::readLine` yields it: the
bytes up to the first newline. -/
def firstLineBytes (bs : List Nat) : List Nat :=
  bs.takeWhile (fun b => b ≠ 10)

/-- `QString::trimmed` on a byte list: leading and trailing whitespace
removed. -/
def trimBytes (l : List Nat) : List Nat :=
  ((l.dropWhile isSpaceByte).reverse.dropWhile isSpaceByte).reverse

/-- The bytes of the literal "solid" (`ASCII_STL_HEADER`). -/
def solidBytes : List Nat := [115, 111, 108, 105, 100]

/-- `STLLoader::isASCIISTL`: first line, trimmed, lowercased, begins with
"solid". -/
def isASCIISTL (bs : List Nat) : Bool :=
  List.isPrefixOf solidBytes ((trimBytes (firstLineBytes bs)).map toLowerByte)

/-- `STLLoader::detectFormat`: binary test first, then ASCII test, else
Unknown. -/
def detectFormat (bs : List Nat) : STLFormat :=
  if isBinarySTL bs then STLFormat.Binary
  else if isASCIISTL bs then STLFormat.ASCII
  else STLFormat.Unknown

end STLLoader

set_option maxRecDepth 8000

/-- `STLTriangle`: one facet, a normal and three corner positions. -/
structure STLTriangle where
  normal : Vec3
  vertex1 : Vec3
  vertex2 : Vec3
  vertex3 : Vec3
deriving DecidableEq

/-- `STLVertex`: a position with its surface normal. -/
structure STLVertex where
  position : Vec3
  normal : Vec3
deriving DecidableEq

/-- The exact value of `FLT_MAX`, the largest finite `float`. -/
def fltMax : ℚ := 2 ^ 128 - 2 ^ 104

/-- `BoundingBox`: min and max corners plus the derived center, size and
largest dimension. -/
structure BoundingBox where
  min : Vec3
  max : Vec3
  center : Vec3
  size : Vec3
  maxDimension : ℚ
deriving DecidableEq

namespace BoundingBox

/-- `BoundingBox::reset`: the sentinel state, min at `+FLT_MAX` and max at
`-FLT_MAX` component-wise. -/
def reset : BoundingBox :=
  ⟨⟨fltMax, fltMax, fltMax⟩, ⟨-fltMax, -fltMax, -fltMax⟩, Vec3.zero, Vec3.zero, 0⟩

/-- `BoundingBox::update`: expand min and max to include one point. -/
def update (bb : BoundingBox) (p : Vec3) : BoundingBox :=
  { bb with
    min := ⟨Min.min bb.min.x p.x, Min.min bb.min.y p.y, Min.min bb.min.z p.z⟩
    max := ⟨Max.max bb.max.x p.x, Max.max bb.max.y p.y, Max.max bb.max.z p.z⟩ }

/-- `qMax(qMax(sx, sy), sz)`, the largest of the three size components. -/
def max3 (a b c : ℚ) : ℚ := Max.max (Max.max a b) c

/-- `BoundingBox::finalize`: derive center, size and maxDimension. -/
def finalize (bb : BoundingBox) : BoundingBox :=
  { bb with
    center := Vec3.smul (1 / 2) (bb.min + bb.max)
    size := bb.max - bb.min
    maxDimension := max3 (bb.max - bb.min).x (bb.max - bb.min).y (bb.max - bb.min).z }

/-- `BoundingBox::isValid`: the sentinel no longer holds. -/
def isValid (bb : BoundingBox) : Bool :=
  decide (bb.min.x ≠ fltMax) && decide (bb.max.x ≠ -fltMax)

end BoundingBox

namespace STLLoader

/-- `STLLoader::isValidTriangle`.  The source computes
`area = cross.length() * 0.5f` and rejects when `area < 1e-10f`; since both
sides are nonnegative this comparison is equivalent to comparing squares,
`cross.lengthSquared() < 4e-20`, which is how the square root is embedded
exactly in `ℚ` (the equivalence with the square-root form is proved in the
validator theorem below).  The coincident-vertex rejections compare squared
distances against `1e-12f` directly, as the source does. -/
def isValidTriangle (t : STLTriangle) : Bool :=
  let edge1 := t.vertex2 - t.vertex1
  let edge2 := t.vertex3 - t.vertex1
  let cr := Vec3.cross edge1 edge2
  if Vec3.lengthSquared cr < 4 / 10 ^ 20 then false
  else if Vec3.lengthSquared (t.vertex1 - t.vertex2) < 1 / 10 ^ 12 ∨
      Vec3.lengthSquared (t.vertex2 - t.vertex3) < 1 / 10 ^ 12 ∨
      Vec3.lengthSquared (t.vertex3 - t.vertex1) < 1 / 10 ^ 12 then false
  else true

/-- One `float` handed out by the `QDataStream`: if the status is already
latched bad or fewer than 4 bytes remain, the value is zero (and the status
latches bad); otherwise the 4 bytes at the position are decoded. -/
def rdF (bs : List Nat) (pos : Nat) (ok : Bool) : F :=
  if ok && decide (pos + 4 ≤ bs.length) then readF32LE bs pos else F.val 0

/-- Error message texts used by the binary decoder. -/
def msgTooSmall : String := "File is too small to be a valid binary STL"

def msgNoTriangles : String := "This STL file contains no triangles"

def msgUnreasonable : String := "This file claims to have an unreasonable number of triangles"

def msgNoValidTriangles : String := "No valid triangles found in this file"

def msgReadTriangle : String := "Error reading triangle from file"

/-- The record-reading loop of `STLLoader::loadBinarySTL`, one step per
declared triangle.  Arguments: remaining record count, current stream
position, sticky stream status, accumulated triangles.  The `continue` after
a NaN/Inf normal advances the stream by only the 12 normal bytes, and the
`continue` after corrupt vertex data advances by only 48 bytes (normal plus
vertices, without the 2-byte attribute), exactly as the source's early
`continue` statements leave the `QDataStream` positioned. -/
def binLoop (bs : List Nat) : Nat → Nat → Bool → List STLTriangle →
    LoadResult × List STLTriangle × String
  | 0, _, _, acc =>
      if acc.isEmpty then (LoadResult.EmptyFile, acc, msgNoValidTriangles)
      else (LoadResult.Success, acc, "")
  | i + 1, pos, ok, acc =>
      let nx := rdF bs pos ok
      let ny := rdF bs (pos + 4) ok
      let nz := rdF bs (pos + 8) ok
      let ok1 := ok && decide (pos + 12 ≤ bs.length)
      if nx.bad || ny.bad || nz.bad then
        binLoop bs i (pos + 12) ok1 acc
      else
        let c0 := rdF bs (pos + 12) ok1
        let c1 := rdF bs (pos + 16) ok1
        let c2 := rdF bs (pos + 20) ok1
        let c3 := rdF bs (pos + 24) ok1
        let c4 := rdF bs (pos + 28) ok1
        let c5 := rdF bs (pos + 32) ok1
        let c6 := rdF bs (pos + 36) ok1
        let c7 := rdF bs (pos + 40) ok1
        let c8 := rdF bs (pos + 44) ok1
        let ok2 := ok1 && decide (pos + 48 ≤ bs.length)
        if c0.bad || c1.bad || c2.bad || c3.bad || c4.bad ||
            c5.bad || c6.bad || c7.bad || c8.bad then
          binLoop bs i (pos + 48) ok2 acc
        else
          let ok3 := ok2 && decide (pos + 50 ≤ bs.length)
          if ok3 = false then (LoadResult.ReadError, acc, msgReadTriangle)
          else
            let tri : STLTriangle :=
              ⟨⟨nx.toQ, ny.toQ, nz.toQ⟩, ⟨c0.toQ, c1.toQ, c2.toQ⟩,
                ⟨c3.toQ, c4.toQ, c5.toQ⟩, ⟨c6.toQ, c7.toQ, c8.toQ⟩⟩
            let acc2 := if isValidTriangle tri then acc ++ [tri] else acc
            binLoop bs i (pos + 50) ok3 acc2

/-- `STLLoader::loadBinarySTL`: size guard, triangle count guards
(`== 0` gives EmptyFile, `> 50000000` gives CorruptedFile), then the record
loop starting at byte 84 with a clean stream status. -/
def loadBinarySTL (bs : List Nat) : LoadResult × List STLTriangle × String :=
  if bs.length < headerSize + 4 then (LoadResult.CorruptedFile, [], msgTooSmall)
  else
    let triangleCount := readU32LE bs 80
    if triangleCount = 0 then (LoadResult.EmptyFile, [], msgNoTriangles)
    else if 50000000 < triangleCount then (LoadResult.CorruptedFile, [], msgUnreasonable)
    else binLoop bs triangleCount 84 true []

/-- Modelled from the spec (section 4.2), for comparison with the source
decoder above: each of the `N` records occupies exactly 50 bytes, a record
whose normal or vertex data is NaN/Inf is skipped with decoding resuming at
the start of the next 50-byte record, and a short read aborts with
ReadError.  This is the reference against which the source's `continue`
misalignment is exhibited. -/
def alignedBinLoop (bs : List Nat) : Nat → Nat → List STLTriangle →
    LoadResult × List STLTriangle
  | 0, _, acc =>
      if acc.isEmpty then (LoadResult.EmptyFile, acc) else (LoadResult.Success, acc)
  | i + 1, pos, acc =>
      if pos + 50 ≤ bs.length then
        let nx := readF32LE bs pos
        let ny := readF32LE bs (pos + 4)
        let nz := readF32LE bs (pos + 8)
        let cs := (List.range 9).map (fun j => readF32LE bs (pos + 12 + 4 * j))
        if nx.bad || ny.bad || nz.bad || cs.any F.bad then
          alignedBinLoop bs i (pos + 50) acc
        else
          let tri : STLTriangle :=
            ⟨⟨nx.toQ, ny.toQ, nz.toQ⟩,
              ⟨(cs.getD 0 (F.val 0)).toQ, (cs.getD 1 (F.val 0)).toQ, (cs.getD 2 (F.val 0)).toQ⟩,
              ⟨(cs.getD 3 (F.val 0)).toQ, (cs.getD 4 (F.val 0)).toQ, (cs.getD 5 (F.val 0)).toQ⟩,
              ⟨(cs.getD 6 (F.val 0)).toQ, (cs.getD 7 (F.val 0)).toQ, (cs.getD 8 (F.val 0)).toQ⟩⟩
          let acc2 := if isValidTriangle tri then acc ++ [tri] else acc
          alignedBinLoop bs i (pos + 50) acc2
      else (LoadResult.ReadError, acc)

/-- Modelled from the spec: the whole binary decode with aligned 50-byte
records. -/
def alignedLoadBinarySTL (bs : List Nat) : LoadResult × List STLTriangle :=
  if bs.length < headerSize + 4 then (LoadResult.CorruptedFile, [])
  else
    let triangleCount := readU32LE bs 80
    if triangleCount = 0 then (LoadResult.EmptyFile, [])
    else if 50000000 < triangleCount then (LoadResult.CorruptedFile, [])
    else alignedBinLoop bs triangleCount 84 []

end STLLoader

/-- One whitespace-delimited token of a line of an ASCII STL file, as the
text-mode view presents it: its text, and the outcome of `QString::toFloat`
on it (`none` when the conversion fails, in which case the source receives
the value 0.0 with `ok == false`; `some f` when it succeeds with value `f`,
which for tokens such as "inf" or "nan" can be non-finite). -/
structure Tok where
  text : String
  parse : Option F
deriving DecidableEq

/-- The value `QString::toFloat` hands back together with its `ok` flag:
0.0 on failure. -/
def Tok.val (t : Tok) : F := t.parse.getD (F.val 0)

/-- ASCII lowercasing of one character, embedding how `QString::toLower`
acts on the characters the STL keywords use. -/
def lowerChar (c : Char) : Char :=
  if 65 ≤ c.toNat ∧ c.toNat ≤ 90 then Char.ofNat (c.toNat + 32) else c

/-- `QString::toLower` on the token text. -/
def strLower (s : String) : String := ⟨s.data.map lowerChar⟩

/-- `QString::startsWith`. -/
def strStartsWith (s p : String) : Bool := List.isPrefixOf p.data s.data

/-- The `ok` flag of `QString::toFloat`. -/
def Tok.ok (t : Tok) : Bool := t.parse.isSome

namespace STLLoader

def solidStr : String := "solid"

def hashStr : String := "#"

def kwFacet : String := "facet"

def kwNormal : String := "normal"

def kwOuter : String := "outer"

def kwLoop : String := "loop"

def kwVertex : String := "vertex"

def kwEndloop : String := "endloop"

def kwEndfacet : String := "endfacet"

def kwEndsolid : String := "endsolid"

def msgNotSolid : String := "Text STL should start with solid"

def msgFacetReopened : String := "Found new triangle before finishing previous one"

def msgOuterMisplaced : String := "outer loop in wrong place"

def msgVertexOutsideLoop : String := "Found vertex outside of loop"

def msgVertexUnreadable : String := "Cannot read vertex coordinates"

def msgVertexCorrupted : String := "Vertex has corrupted coordinates"

def msgTooManyVertices : String := "Triangle has too many vertices"

def msgEndloopUnmatched : String := "endloop without matching outer loop"

def msgWrongVertexCount : String := "Triangle has wrong number of vertices"

def msgEndfacetMisplaced : String := "endfacet without proper triangle structure"

def msgNoValidAscii : String := "No valid triangles found in text STL file"

/-- The mutable locals of the `loadASCIISTL` parsing loop: the triangle
being assembled, the per-facet vertex counter, the two state flags and the
accumulated triangle list. -/
structure AscState where
  normal : Vec3
  v1 : Vec3
  v2 : Vec3
  v3 : Vec3
  vertexCount : Nat
  inFacet : Bool
  inLoop : Bool
  triangles : List STLTriangle
deriving DecidableEq

/-- The initial parser state (a default-constructed `STLTriangle` holds
zero vectors). -/
def ascInit : AscState := ⟨Vec3.zero, Vec3.zero, Vec3.zero, Vec3.zero, 0, false, false, []⟩

/-- Outcome of processing one line: continue with a new state, break out of
the loop (`endsolid`), or return a fatal result. -/
inductive AscStep where
  | next : AscState → AscStep
  | halt : AscState → AscStep
  | err : LoadResult → String → AscStep

/-- Clamping of a parsed normal component: NaN/Inf becomes 0. -/
def clampF (f : F) : ℚ := if f.bad then 0 else f.toQ

/-- One iteration of the `loadASCIISTL` while-loop on an already trimmed and
tokenised line.  Blank lines and lines starting with "#" are skipped; the
first token, lowercased, selects the branch; each branch reproduces the
source's guards, its parse-failure policy (all three normal components are
zeroed when any fails; a vertex parse failure or non-finite coordinate is
fatal) and its state transitions. -/
def processLine (st : AscState) (line : List Tok) : AscStep :=
  match line with
  | [] => AscStep.next st
  | t0 :: values =>
    if strStartsWith t0.text hashStr then AscStep.next st
    else
      let kw := strLower t0.text
      if kw = kwFacet ∧ 4 ≤ values.length ∧ (values.getD 0 ⟨"", none⟩).text = kwNormal then
        if st.inFacet then AscStep.err LoadResult.CorruptedFile msgFacetReopened
        else
          let t1 := values.getD 1 ⟨"", none⟩
          let t2 := values.getD 2 ⟨"", none⟩
          let t3 := values.getD 3 ⟨"", none⟩
          let n : Vec3 :=
            if t1.ok = false ∨ t2.ok = false ∨ t3.ok = false then Vec3.zero
            else ⟨clampF t1.val, clampF t2.val, clampF t3.val⟩
          AscStep.next { st with normal := n, inFacet := true, vertexCount := 0 }
      else if kw = kwOuter ∧ 1 ≤ values.length ∧ (values.getD 0 ⟨"", none⟩).text = kwLoop then
        if st.inFacet = false ∨ st.inLoop then
          AscStep.err LoadResult.CorruptedFile msgOuterMisplaced
        else AscStep.next { st with inLoop := true }
      else if kw = kwVertex ∧ 3 ≤ values.length then
        if st.inLoop = false then AscStep.err LoadResult.CorruptedFile msgVertexOutsideLoop
        else
          let t1 := values.getD 0 ⟨"", none⟩
          let t2 := values.getD 1 ⟨"", none⟩
          let t3 := values.getD 2 ⟨"", none⟩
          if t1.ok = false ∨ t2.ok = false ∨ t3.ok = false then
            AscStep.err LoadResult.CorruptedFile msgVertexUnreadable
          else if t1.val.bad ∨ t2.val.bad ∨ t3.val.bad then
            AscStep.err LoadResult.CorruptedFile msgVertexCorrupted
          else
            let v : Vec3 := ⟨t1.val.toQ, t2.val.toQ, t3.val.toQ⟩
            if st.vertexCount = 0 then
              AscStep.next { st with v1 := v, vertexCount := 1 }
            else if st.vertexCount = 1 then
              AscStep.next { st with v2 := v, vertexCount := 2 }
            else if st.vertexCount = 2 then
              AscStep.next { st with v3 := v, vertexCount := 3 }
            else AscStep.err LoadResult.CorruptedFile msgTooManyVertices
      else if kw = kwEndloop then
        if st.inLoop = false then AscStep.err LoadResult.CorruptedFile msgEndloopUnmatched
        else if st.vertexCount ≠ 3 then
          AscStep.err LoadResult.CorruptedFile msgWrongVertexCount
        else AscStep.next { st with inLoop := false }
      else if kw = kwEndfacet then
        if st.inFacet = false ∨ st.inLoop then
          AscStep.err LoadResult.CorruptedFile msgEndfacetMisplaced
        else
          let tri : STLTriangle := ⟨st.normal, st.v1, st.v2, st.v3⟩
          let acc := if isValidTriangle tri then st.triangles ++ [tri] else st.triangles
          AscStep.next { st with triangles := acc, inFacet := false }
      else if kw = kwEndsolid then AscStep.halt st
      else AscStep.next st

/-- The result once the loop is left: an empty triangle list is EmptyFile,
otherwise Success. -/
def ascFinish (st : AscState) : LoadResult × List STLTriangle × String :=
  if st.triangles.isEmpty then (LoadResult.EmptyFile, st.triangles, msgNoValidAscii)
  else (LoadResult.Success, st.triangles, "")

/-- The `loadASCIISTL` while-loop over the remaining lines. -/
def runAsc (st : AscState) : List (List Tok) → LoadResult × List STLTriangle × String
  | [] => ascFinish st
  | l :: ls =>
    match processLine st l with
    | AscStep.next st2 => runAsc st2 ls
    | AscStep.halt st2 => ascFinish st2
    | AscStep.err r m => (r, st.triangles, m)

/-- Whether the first line passes the opening check
`line.toLower().startsWith("solid")` (on a tokenised line this is exactly
the condition that its first token, lowercased, starts with "solid"). -/
def firstLineSolid (l : List Tok) : Bool :=
  match l with
  | [] => false
  | t :: _ => strStartsWith (strLower t.text) solidStr

/-- `STLLoader::loadASCIISTL` over the text-mode view of the file: the
first line must open with "solid" (a missing line reads as the null string
and fails the check), then the state machine consumes the remaining
lines. -/
def loadASCIISTL (lines : List (List Tok)) : LoadResult × List STLTriangle × String :=
  match lines with
  | [] => (LoadResult.InvalidFormat, [], msgNotSolid)
  | l0 :: rest =>
    if firstLineSolid l0 then runAsc ascInit rest
    else (LoadResult.InvalidFormat, [], msgNotSolid)

end STLLoader

namespace STLLoader

/-- The processing options of an `STLLoader` instance. -/
structure Config where
  autoCenter : Bool
  autoNormalize : Bool
  calculateNormals : Bool
  mergeVertices : Bool
  vertexTolerance : ℚ
deriving DecidableEq

/-- `DEFAULT_VERTEX_TOLERANCE`, `1e-6f`. -/
def defaultVertexTolerance : ℚ := 1 / 10 ^ 6

/-- The option values installed by the `STLLoader()` constructor. -/
def initialConfig : Config :=
  { autoCenter := true
    autoNormalize := false
    calculateNormals := false
    mergeVertices := true
    vertexTolerance := defaultVertexTolerance }

/-- The data members of an `STLLoader` instance that a load populates. -/
structure LoaderState where
  triangles : List STLTriangle
  vertices : List STLVertex
  vertexData : List ℚ
  indices : List Nat
  boundingBox : BoundingBox
  format : STLFormat
  errorString : String
deriving DecidableEq

/-- `STLLoader::clear`: every member back to its empty state. -/
def clearState : LoaderState :=
  ⟨[], [], [], [], BoundingBox.reset, STLFormat.Unknown, ""⟩

/-- The three corners of every triangle, in the order `calculateBoundingBox`
visits them. -/
def cornersOf : List STLTriangle → List Vec3
  | [] => []
  | t :: ts => t.vertex1 :: t.vertex2 :: t.vertex3 :: cornersOf ts

/-- `STLLoader::calculateBoundingBox`: reset, fold `update` over every
corner, finalize. -/
def calculateBoundingBox (st : LoaderState) : LoaderState :=
  { st with
    boundingBox :=
      BoundingBox.finalize
        (List.foldl BoundingBox.update BoundingBox.reset (cornersOf st.triangles)) }

/-- Translation of one triangle's corners (the stored normal is not
touched). -/
def translateTri (o : Vec3) (t : STLTriangle) : STLTriangle :=
  { t with vertex1 := t.vertex1 + o, vertex2 := t.vertex2 + o, vertex3 := t.vertex3 + o }

/-- `STLLoader::centerModel`: no-op on an invalid bounding box, otherwise
translate every corner by `-center`, shift min and max along, and set the
center to the origin. -/
def centerModel (st : LoaderState) : LoaderState :=
  if st.boundingBox.isValid = false then st
  else
    let offset := Vec3.neg st.boundingBox.center
    { st with
      triangles := st.triangles.map (translateTri offset)
      boundingBox :=
        { st.boundingBox with
          min := st.boundingBox.min + offset
          max := st.boundingBox.max + offset
          center := Vec3.zero } }

/-- Scaling of one triangle's corners (the stored normal is not touched). -/
def scaleTri (s : ℚ) (t : STLTriangle) : STLTriangle :=
  { t with
    vertex1 := Vec3.smul s t.vertex1
    vertex2 := Vec3.smul s t.vertex2
    vertex3 := Vec3.smul s t.vertex3 }

/-- `STLLoader::normalizeModel`: no-op on an invalid box or non-positive
maxDimension, otherwise scale every corner and every bounding-box field by
`2 / maxDimension`. -/
def normalizeModel (st : LoaderState) : LoaderState :=
  if st.boundingBox.isValid = false ∨ st.boundingBox.maxDimension ≤ 0 then st
  else
    let scale := 2 / st.boundingBox.maxDimension
    { st with
      triangles := st.triangles.map (scaleTri scale)
      boundingBox :=
        { min := Vec3.smul scale st.boundingBox.min
          max := Vec3.smul scale st.boundingBox.max
          center := Vec3.smul scale st.boundingBox.center
          size := Vec3.smul scale st.boundingBox.size
          maxDimension := st.boundingBox.maxDimension * scale } }

/-- `STLLoader::calculateTriangleNormal`, up to the unit rescaling: the
cross product of the two edges when its squared length exceeds `1e-12f`
(the source then rescales it to unit length, a positive scalar multiple
that the rational embedding keeps unscaled), else the `(0,0,1)` fallback. -/
def calculateTriangleNormal (v1 v2 v3 : Vec3) : Vec3 :=
  let n := Vec3.cross (v2 - v1) (v3 - v1)
  if 1 / 10 ^ 12 < Vec3.lengthSquared n then n else ⟨0, 0, 1⟩

/-- The normal `generateVertexBuffer` emits for one triangle: the
recomputed normal when recomputation is requested or the stored one has
squared length below `0.001f` (the recomputed value is a unit vector or the
fallback in the source, so its own `> 0.001f` check always passes there);
otherwise the stored normal when its squared length exceeds `0.001f` (the
source then rescales it to unit length), else the `(0,0,1)` default. -/
def emitNormal (calcNormals : Bool) (t : STLTriangle) : Vec3 :=
  if calcNormals || decide (Vec3.lengthSquared t.normal < 1 / 10 ^ 3) then
    calculateTriangleNormal t.vertex1 t.vertex2 t.vertex3
  else if 1 / 10 ^ 3 < Vec3.lengthSquared t.normal then t.normal
  else ⟨0, 0, 1⟩

/-- The three corner vertices `generateVertexBuffer` appends for one
triangle. -/
def buildVertices (calcNormals : Bool) : List STLTriangle → List STLVertex
  | [] => []
  | t :: ts =>
    let n := emitNormal calcNormals t
    ⟨t.vertex1, n⟩ :: ⟨t.vertex2, n⟩ :: ⟨t.vertex3, n⟩ :: buildVertices calcNormals ts

/-- The six floats appended to the raw buffer for one vertex: position then
normal. -/
def vertexSix (v : STLVertex) : List ℚ :=
  [v.position.x, v.position.y, v.position.z, v.normal.x, v.normal.y, v.normal.z]

/-- The interleaved position+normal buffer of a vertex list. -/
def flatData : List STLVertex → List ℚ
  | [] => []
  | v :: vs => vertexSix v ++ flatData vs

/-- `STLLoader::generateVertexBuffer`: three corner vertices per triangle
and their interleaved raw buffer (the source writes the raw buffer from the
same corners and the same emitted normal, which is exactly the interleaving
of the vertex list it builds). -/
def generateVertexBuffer (cfg : Config) (st : LoaderState) : LoaderState :=
  let vs := buildVertices cfg.calculateNormals st.triangles
  { st with vertices := vs, vertexData := flatData vs }

/-- `STLLoader::verticesEqual`: positions within `tolerance`, compared by
squared distance against `tolerance * tolerance`; normals are not
consulted. -/
def verticesEqual (a b : STLVertex) (tolerance : ℚ) : Bool :=
  decide (Vec3.lengthSquared (a.position - b.position) < tolerance * tolerance)

/-- The scan of `STLLoader::findOrAddVertex`: index of the first stored
unique vertex equal (within tolerance) to the candidate. -/
def findVertexIdx : List STLVertex → STLVertex → ℚ → Option Nat
  | [], _, _ => none
  | u :: us, v, tol =>
    if verticesEqual u v tol then some 0 else (findVertexIdx us v tol).map (· + 1)

/-- `STLLoader::findOrAddVertex`: return the found index, or append the
candidate and return its fresh index. -/
def findOrAddVertex (uniq : List STLVertex) (v : STLVertex) (tol : ℚ) :
    List STLVertex × Nat :=
  match findVertexIdx uniq v tol with
  | some i => (uniq, i)
  | none => (uniq ++ [v], uniq.length)

/-- The welding loop of `STLLoader::generateIndices`: one index appended
per original corner vertex. -/
def weldLoop (tol : ℚ) : List STLVertex → List STLVertex → List Nat →
    List STLVertex × List Nat
  | [], uniq, idx => (uniq, idx)
  | v :: vs, uniq, idx =>
    let fa := findOrAddVertex uniq v tol
    weldLoop tol vs fa.1 (idx ++ [fa.2])

/-- The unique-vertex list and index list produced from a corner-vertex
list. -/
def generateIndicesCore (vs : List STLVertex) (tol : ℚ) : List STLVertex × List Nat :=
  weldLoop tol vs [] []

/-- `STLLoader::generateIndices`: early exit when there are no vertices,
otherwise weld, replace the vertex list by the unique list, rebuild the raw
buffer from it and store the per-corner indices. -/
def generateIndices (st : LoaderState) (tol : ℚ) : LoaderState :=
  if st.vertices.isEmpty then st
  else
    let w := generateIndicesCore st.vertices tol
    { st with vertices := w.1, indices := w.2, vertexData := flatData w.1 }

/-- `STLLoader::processTriangles`: bounding box, optional centering,
optional normalization, vertex buffer, optional welding. -/
def processTriangles (cfg : Config) (st : LoaderState) : LoaderState :=
  if st.triangles.isEmpty then st
  else
    let st1 := calculateBoundingBox st
    let st2 := if cfg.autoCenter then centerModel st1 else st1
    let st3 := if cfg.autoNormalize then normalizeModel st2 else st2
    let st4 := generateVertexBuffer cfg st3
    if cfg.mergeVertices then generateIndices st4 cfg.vertexTolerance else st4

/-- A file as the loader sees it: whether it exists and is readable, its
raw bytes, and the text-mode view of the same content (lines trimmed and
tokenised, with the `QString::toFloat` outcome per token). -/
structure FsFile where
  present : Bool
  readable : Bool
  bytes : List Nat
  textLines : List (List Tok)

def msgNotExist : String := "File does not exist"

def msgNotReadable : String := "Cannot read file"

def msgEmptyFsFile : String := "File is empty"

def msgNotSTL : String := "This doesnt look like a valid STL file"

/-- `STLLoader::loadFile`: clear, existence / readability / emptiness
guards (each returning directly with its message stored), format detection,
decode, then either post-processing on success or — the final
`if (result != Success) clear()` of the source — a full clear that also
erases the error message the decoder had just stored (the decoder's message
is the third component of its result here; the source keeps it in
`errorString`, and `clear()` resets that member). -/
def loadFile (cfg : Config) (f : FsFile) : LoadResult × LoaderState :=
  let st0 := clearState
  if f.present = false then
    (LoadResult.FileNotFound, { st0 with errorString := msgNotExist })
  else if f.readable = false then
    (LoadResult.CannotOpenFile, { st0 with errorString := msgNotReadable })
  else if f.bytes.length = 0 then
    (LoadResult.EmptyFile, { st0 with errorString := msgEmptyFsFile })
  else
    let fmt := detectFormat f.bytes
    if fmt = STLFormat.Unknown then
      (LoadResult.InvalidFormat, { st0 with errorString := msgNotSTL })
    else
      let dec := if fmt = STLFormat.Binary then loadBinarySTL f.bytes
        else loadASCIISTL f.textLines
      if dec.1 = LoadResult.Success then
        (dec.1, processTriangles cfg { st0 with triangles := dec.2.1, format := fmt })
      else (dec.1, clearState)

end STLLoader

/-- Two position-distinct corner vertices used to instantiate C8. -/
def weldDemoVerts : List STLVertex :=
  [⟨⟨0, 0, 0⟩, ⟨0, 0, 1⟩⟩, ⟨⟨1, 0, 0⟩, ⟨0, 0, 1⟩⟩]

/-- First-inserted corner for the C9 witness. -/
def weldDemoA : STLVertex := ⟨⟨0, 0, 0⟩, ⟨0, 0, 1⟩⟩

/-- Nearby corner with a different normal for the C9 witness. -/
def weldDemoB : STLVertex := ⟨⟨1 / 10 ^ 7, 0, 0⟩, ⟨1, 0, 0⟩⟩

/-- Absolute-value bound on every coordinate of every triangle corner by
`2^126`, the idealised float-range side condition under which the `FLT_MAX`
sentinels of the bounding-box fold behave as in the source (where all
decoded values are finite floats). -/
def inFloatRange (ts : List STLTriangle) : Prop :=
  ∀ v ∈ STLLoader.cornersOf ts,
    |v.x| ≤ 2 ^ 126 ∧ |v.y| ≤ 2 ^ 126 ∧ |v.z| ≤ 2 ^ 126

/-- The state an accumulated triangle list produces before
post-processing. -/
def stateWith (ts : List STLTriangle) : STLLoader.LoaderState :=
  { STLLoader.clearState with triangles := ts }

/-- The min fold of the bounding box along one coordinate, starting from
the `+FLT_MAX` sentinel. -/
def sentinelMin (l : List ℚ) : ℚ := List.foldl Min.min fltMax l

/-- The max fold of the bounding box along one coordinate, starting from
the `-FLT_MAX` sentinel. -/
def sentinelMax (l : List ℚ) : ℚ := List.foldl Max.max (-fltMax) l

/-- A concrete right triangle in the xy-plane used to instantiate the
post-processing claims. -/
def demoTri : STLTriangle := ⟨⟨0, 0, 1⟩, ⟨0, 0, 0⟩, ⟨1, 0, 0⟩, ⟨0, 1, 0⟩⟩

/-- Singleton triangle list for the post-processing witnesses. -/
def demoTris : List STLTriangle := [demoTri]

/-- A token that fails `QString::toFloat` (value 0, ok false). -/
def tokOf (s : String) : Tok := ⟨s, none⟩

def xStr : String := "x"

/-- The two-line ASCII file "solid x" then "endsolid": it exists, is
readable, and its text view tokenises into those two lines. -/
def demoAsciiFile : STLLoader.FsFile :=
  { present := true
    readable := true
    bytes := [115, 111, 108, 105, 100, 32, 120, 10, 101, 110, 100, 115, 111, 108, 105, 100, 10]
    textLines := [[tokOf STLLoader.solidStr, tokOf xStr], [tokOf STLLoader.kwEndsolid]] }

/-- An 84-byte binary-layout file whose declared triangle count is 0 (80
zero header bytes, then the little-endian count 0). -/
def fileN0Bytes : List Nat := List.replicate 84 0

/-- The N=0 file with its text-mode view: a single line holding one token
of 84 NUL characters, which fails float parsing. -/
def fileN0 : STLLoader.FsFile :=
  { present := true
    readable := true
    bytes := fileN0Bytes
    textLines := [[⟨⟨List.replicate 84 (Char.ofNat 0)⟩, none⟩]] }

/-- The 84-byte prefix of a binary-layout file declaring 100,000,000
triangles (little-endian bytes 00 E1 F5 05 at offset 80). -/
def fileN100MBytes : List Nat := List.replicate 80 0 ++ [0, 225, 245, 5]

/-- A 184-byte binary STL file declaring 2 triangles.  Record 0 (bytes
84..133) has the NaN normal `(NaN, 0, 0)` and zero vertex data; record 1
(bytes 134..183) is a well-formed triangle with normal `(0,0,0)` and
vertices `(0,0,0)`, `(1,0,0)`, `(0,1,0)` (the byte pattern `00 00 80 3F` is
the float 1.0). -/
def content184 : List Nat :=
  List.replicate 80 0 ++ [2, 0, 0, 0] ++ [0, 0, 192, 127] ++ List.replicate 70 0 ++
    [0, 0, 128, 63] ++ List.replicate 12 0 ++ [0, 0, 128, 63] ++ List.replicate 6 0

/-- A token that parses as the finite float `q`. -/
def tokNum (s : String) (q : ℚ) : Tok := ⟨s, some (F.val q)⟩

/-- Token text constants for the C6 demonstration file. -/
def badStr : String := "bad"

def oneStr : String := "1"

def twoStr : String := "2"

def zeroStr : String := "0"

def demoStr : String := "demo"

/-- The tokenised ASCII file whose facet-normal line reads
`facet normal bad 1 2`: the first normal component fails to parse while
the second and third parse as 1 and 2; the one facet is a well-formed
right triangle. -/
def c6Lines : List (List Tok) :=
  [[tokOf STLLoader.solidStr, tokOf demoStr],
    [tokOf STLLoader.kwFacet, tokOf STLLoader.kwNormal, tokOf badStr,
      tokNum oneStr 1, tokNum twoStr 2],
    [tokOf STLLoader.kwOuter, tokOf STLLoader.kwLoop],
    [tokOf STLLoader.kwVertex, tokNum zeroStr 0, tokNum zeroStr 0, tokNum zeroStr 0],
    [tokOf STLLoader.kwVertex, tokNum oneStr 1, tokNum zeroStr 0, tokNum zeroStr 0],
    [tokOf STLLoader.kwVertex, tokNum zeroStr 0, tokNum oneStr 1, tokNum zeroStr 0],
    [tokOf STLLoader.kwEndloop],
    [tokOf STLLoader.kwEndfacet],
    [tokOf STLLoader.kwEndsolid]]

def nanStr : String := "nan"

def infStr : String := "inf"

/-- A token that parses as NaN. -/
def tokNan : Tok := ⟨nanStr, some F.nan⟩

/-- A token that parses as infinity. -/
def tokInf : Tok := ⟨infStr, some F.inf⟩

lemma Vec3.add_def (a b : Vec3) : a + b = ⟨a.x + b.x, a.y + b.y, a.z + b.z⟩ := rfl

lemma Vec3.sub_def (a b : Vec3) : a - b = ⟨a.x - b.x, a.y - b.y, a.z - b.z⟩ := rfl

lemma Vec3.neg_def (a : Vec3) : -a = ⟨-a.x, -a.y, -a.z⟩ := rfl

lemma Vec3.lengthSquared_nonneg (v : Vec3) : 0 ≤ v.lengthSquared := by
  unfold Vec3.lengthSquared
  have hx := mul_self_nonneg v.x
  have hy := mul_self_nonneg v.y
  have hz := mul_self_nonneg v.z
  linarith

lemma area_threshold_iff (c : ℚ) :
    ((1 : ℝ) / 10 ^ 10 ≤ Real.sqrt (c : ℝ) / 2) ↔ 4 / 10 ^ 20 ≤ c := by
  rw [le_div_iff₀ (by norm_num : (0 : ℝ) < 2),
    Real.le_sqrt' (by norm_num : (0 : ℝ) < 1 / 10 ^ 10 * 2)]
  rw [show ((1 : ℝ) / 10 ^ 10 * 2) ^ 2 = 4 / 10 ^ 20 by norm_num]
  rw [show ((4 : ℝ) / 10 ^ 20) = ((4 / 10 ^ 20 : ℚ) : ℝ) by norm_num]
  exact Rat.cast_le

/-- C5.  For every triangle, the validator accepts exactly when the area
`|cross(v2-v1, v3-v1)| / 2` is at least `1e-10` and all three pairwise
squared vertex distances are at least `1e-12`.  The validator itself is a
pure function of its argument (`STLLoader.isValidTriangle` is a plain
`def`), mirroring the side-effect-free predicate of the source. -/
theorem claim_C5_validator (t : STLTriangle) :
    STLLoader.isValidTriangle t = true ↔
      ((1 : ℝ) / 10 ^ 10 ≤
          Real.sqrt ((Vec3.lengthSquared
            (Vec3.cross (t.vertex2 - t.vertex1) (t.vertex3 - t.vertex1)) : ℚ) : ℝ) / 2 ∧
        1 / 10 ^ 12 ≤ Vec3.lengthSquared (t.vertex1 - t.vertex2) ∧
        1 / 10 ^ 12 ≤ Vec3.lengthSquared (t.vertex2 - t.vertex3) ∧
        1 / 10 ^ 12 ≤ Vec3.lengthSquared (t.vertex3 - t.vertex1)) := by
  have harea := area_threshold_iff
    (Vec3.lengthSquared (Vec3.cross (t.vertex2 - t.vertex1) (t.vertex3 - t.vertex1)))
  unfold STLLoader.isValidTriangle
  by_cases h1 : Vec3.lengthSquared
      (Vec3.cross (t.vertex2 - t.vertex1) (t.vertex3 - t.vertex1)) < 4 / 10 ^ 20
  · simp only [if_pos h1, Bool.false_eq_true, false_iff]
    rintro ⟨hco, -⟩
    exact absurd (harea.mp hco) (not_le.mpr h1)
  · by_cases h2 : Vec3.lengthSquared (t.vertex1 - t.vertex2) < 1 / 10 ^ 12 ∨
        Vec3.lengthSquared (t.vertex2 - t.vertex3) < 1 / 10 ^ 12 ∨
        Vec3.lengthSquared (t.vertex3 - t.vertex1) < 1 / 10 ^ 12
    · simp only [if_neg h1, if_pos h2, Bool.false_eq_true, false_iff]
      rintro ⟨-, hd1, hd2, hd3⟩
      rcases h2 with h | h | h
      · exact absurd hd1 (not_le.mpr h)
      · exact absurd hd2 (not_le.mpr h)
      · exact absurd hd3 (not_le.mpr h)
    · simp only [if_neg h1, if_neg h2, true_iff]
      push_neg at h2
      exact ⟨harea.mpr (not_lt.mp h1), h2.1, h2.2.1, h2.2.2⟩

lemma isBinarySTL_iff (bs : List Nat) :
    STLLoader.isBinarySTL bs = true ↔
      (bs.length = 84 + 50 * readU32LE bs 80 ∧ 0 < readU32LE bs 80 ∧
        readU32LE bs 80 < 50000000) := by
  unfold STLLoader.isBinarySTL STLLoader.headerSize STLLoader.triangleSize
  by_cases hlen : bs.length < 80 + 4
  · rw [if_pos hlen]
    simp only [Bool.false_eq_true, false_iff]
    rintro ⟨h1, -, -⟩
    omega
  · rw [if_neg hlen]
    simp only [Bool.and_eq_true, decide_eq_true_eq]
    constructor
    · rintro ⟨⟨hEq, hPos⟩, hLt⟩
      refine ⟨?_, hPos, hLt⟩
      omega
    · rintro ⟨hEq, hPos, hLt⟩
      refine ⟨⟨?_, hPos⟩, hLt⟩
      omega

/-- C4.  The sniffer classifies a file as Binary exactly when its byte
length equals `80 + 4 + 50 * N` for the little-endian declared count `N` at
offset 80 with `0 < N < 50000000`; any other file falls through to the
ASCII first-line test ("solid" after trimming and lowercasing) and
otherwise to Unknown. -/
theorem claim_C4_detectFormat (bs : List Nat) :
    STLLoader.detectFormat bs =
      (if bs.length = 84 + 50 * readU32LE bs 80 ∧ 0 < readU32LE bs 80 ∧
          readU32LE bs 80 < 50000000 then STLFormat.Binary
        else if STLLoader.isASCIISTL bs then STLFormat.ASCII
        else STLFormat.Unknown) := by
  by_cases hc : bs.length = 84 + 50 * readU32LE bs 80 ∧ 0 < readU32LE bs 80 ∧
      readU32LE bs 80 < 50000000
  · rw [if_pos hc]
    unfold STLLoader.detectFormat
    rw [(isBinarySTL_iff bs).mpr hc]
    simp
  · rw [if_neg hc]
    unfold STLLoader.detectFormat
    have hb : STLLoader.isBinarySTL bs = false := by
      cases h : STLLoader.isBinarySTL bs
      · rfl
      · exact absurd ((isBinarySTL_iff bs).mp h) hc
    rw [hb]
    simp

lemma findVertexIdx_none (uniq : List STLVertex) (v : STLVertex) (tol : ℚ)
    (h : ∀ u ∈ uniq, STLLoader.verticesEqual u v tol = false) :
    STLLoader.findVertexIdx uniq v tol = none := by
  induction uniq with
  | nil => rfl
  | cons u us ih =>
    unfold STLLoader.findVertexIdx
    rw [h u (List.mem_cons_self u us)]
    simp only [Bool.false_eq_true, if_false]
    rw [ih (fun w hw => h w (List.mem_cons_of_mem u hw))]
    rfl

lemma weldLoop_unique (tol : ℚ) (vs : List STLVertex) :
    ∀ (uniq : List STLVertex) (idx : List Nat),
      (∀ v ∈ vs, ∀ u ∈ uniq, STLLoader.verticesEqual u v tol = false) →
      List.Pairwise (fun a b => STLLoader.verticesEqual a b tol = false) vs →
      STLLoader.weldLoop tol vs uniq idx =
        (uniq ++ vs, idx ++ List.range' uniq.length vs.length) := by
  induction vs with
  | nil =>
    intro uniq idx h hp
    simp [STLLoader.weldLoop, List.range']
  | cons v vs ih =>
    intro uniq idx h hp
    have hfind : STLLoader.findVertexIdx uniq v tol = none :=
      findVertexIdx_none uniq v tol (fun u hu => h v (List.mem_cons_self v vs) u hu)
    have hcons := List.pairwise_cons.mp hp
    have hrec := ih (uniq ++ [v]) (idx ++ [uniq.length]) ?hall hcons.2
    case hall =>
      intro w hw u hu
      rcases List.mem_append.mp hu with h1 | h2
      · exact h w (List.mem_cons_of_mem v hw) u h1
      · have hu2 : u = v := by simpa using h2
        rw [hu2]
        exact hcons.1 w hw
    simp only [STLLoader.weldLoop, STLLoader.findOrAddVertex, hfind]
    rw [hrec]
    simp [List.range'_succ, List.append_assoc]

/-- C8.  On a corner-vertex list whose pairwise position distances all
exceed the tolerance (stated on squared distances, as the source compares
them), index generation keeps the vertex list unchanged and emits the
identity index sequence `0, 1, ..., N-1` in corner order. -/
theorem claim_C8_weld_idempotent (vs : List STLVertex) (tol : ℚ)
    (h : List.Pairwise
      (fun a b => tol * tol < Vec3.lengthSquared (a.position - b.position)) vs) :
    STLLoader.generateIndicesCore vs tol = (vs, List.range vs.length) := by
  have h2 : List.Pairwise (fun a b => STLLoader.verticesEqual a b tol = false) vs := by
    refine h.imp ?_
    intro a b hab
    unfold STLLoader.verticesEqual
    simp [not_lt.mpr (le_of_lt hab)]
  unfold STLLoader.generateIndicesCore
  rw [weldLoop_unique tol vs [] [] (by intro v hv u hu; simp at hu) h2]
  simp [List.range_eq_range']

/-- Witness for C8 at a concrete two-vertex list and the default
tolerance. -/
theorem claim_C8_weld_idempotent_witness :
    STLLoader.generateIndicesCore weldDemoVerts STLLoader.defaultVertexTolerance =
      (weldDemoVerts, List.range weldDemoVerts.length) := by
  refine claim_C8_weld_idempotent weldDemoVerts STLLoader.defaultVertexTolerance
    (List.Pairwise.cons ?_ (List.Pairwise.cons ?_ List.Pairwise.nil))
  · intro b hb
    have hb2 : b = (⟨⟨1, 0, 0⟩, ⟨0, 0, 1⟩⟩ : STLVertex) := by simpa using hb
    rw [hb2]
    norm_num [STLLoader.defaultVertexTolerance, Vec3.sub_def, Vec3.lengthSquared]
  · intro b hb
    exact absurd hb (List.not_mem_nil b)

/-- C9.  Welding compares positions only: any two corners within tolerance
of each other, even with different normals, collapse onto the
first-inserted corner, whose position and normal are what the rebuilt
interleaved buffer emits. -/
theorem claim_C9_weld_ignores_normals (a b : STLVertex) (tol : ℚ)
    (hpos : Vec3.lengthSquared (a.position - b.position) < tol * tol)
    (hnrm : a.normal ≠ b.normal) :
    STLLoader.generateIndicesCore [a, b] tol = ([a], [0, 0]) ∧
      STLLoader.flatData [a] = [a.position.x, a.position.y, a.position.z,
        a.normal.x, a.normal.y, a.normal.z] := by
  refine ⟨?_, by simp [STLLoader.flatData, STLLoader.vertexSix]⟩
  have he : STLLoader.verticesEqual a b tol = true := by
    unfold STLLoader.verticesEqual
    simpa using hpos
  simp [STLLoader.generateIndicesCore, STLLoader.weldLoop, STLLoader.findOrAddVertex,
    STLLoader.findVertexIdx, he]

/-- Witness for C9 at two concrete corners a tenth of the tolerance apart
with different normals. -/
theorem claim_C9_weld_ignores_normals_witness :
    STLLoader.generateIndicesCore [weldDemoA, weldDemoB] STLLoader.defaultVertexTolerance =
      ([weldDemoA], [0, 0]) := by
  refine (claim_C9_weld_ignores_normals weldDemoA weldDemoB
    STLLoader.defaultVertexTolerance ?_ ?_).1
  · show Vec3.lengthSquared (Vec3.sub ⟨0, 0, 0⟩ ⟨1 / 10 ^ 7, 0, 0⟩) <
      STLLoader.defaultVertexTolerance * STLLoader.defaultVertexTolerance
    norm_num [STLLoader.defaultVertexTolerance, Vec3.sub, Vec3.lengthSquared]
  · show (⟨0, 0, 1⟩ : Vec3) ≠ ⟨1, 0, 0⟩
    norm_num [Vec3.mk.injEq]

lemma foldl_min_le_init (a : ℚ) (l : List ℚ) : List.foldl Min.min a l ≤ a := by
  induction l generalizing a with
  | nil => exact le_refl a
  | cons c cs ih => exact le_trans (ih (Min.min a c)) (min_le_left a c)

lemma foldl_min_le_mem (a x : ℚ) (l : List ℚ) (hx : x ∈ l) :
    List.foldl Min.min a l ≤ x := by
  induction l generalizing a with
  | nil => cases hx
  | cons c cs ih =>
    rcases List.mem_cons.mp hx with h | h
    · subst h
      exact le_trans (foldl_min_le_init (Min.min a x) cs) (min_le_right a x)
    · exact ih (Min.min a c) h

lemma le_foldl_min (b a : ℚ) (l : List ℚ) (hba : b ≤ a) (h : ∀ x ∈ l, b ≤ x) :
    b ≤ List.foldl Min.min a l := by
  induction l generalizing a with
  | nil => exact hba
  | cons c cs ih =>
    exact ih (Min.min a c) (le_min hba (h c (List.mem_cons_self c cs)))
      (fun x hx => h x (List.mem_cons_of_mem c hx))

lemma init_le_foldl_max (a : ℚ) (l : List ℚ) : a ≤ List.foldl Max.max a l := by
  induction l generalizing a with
  | nil => exact le_refl a
  | cons c cs ih => exact le_trans (le_max_left a c) (ih (Max.max a c))

lemma mem_le_foldl_max (a x : ℚ) (l : List ℚ) (hx : x ∈ l) :
    x ≤ List.foldl Max.max a l := by
  induction l generalizing a with
  | nil => cases hx
  | cons c cs ih =>
    rcases List.mem_cons.mp hx with h | h
    · subst h
      exact le_trans (le_max_right a x) (init_le_foldl_max (Max.max a x) cs)
    · exact ih (Max.max a c) h

lemma foldl_max_le (b a : ℚ) (l : List ℚ) (hba : a ≤ b) (h : ∀ x ∈ l, x ≤ b) :
    List.foldl Max.max a l ≤ b := by
  induction l generalizing a with
  | nil => exact hba
  | cons c cs ih =>
    exact ih (Max.max a c) (max_le hba (h c (List.mem_cons_self c cs)))
      (fun x hx => h x (List.mem_cons_of_mem c hx))

lemma foldl_min_map_add (o : ℚ) (l : List ℚ) (a : ℚ) :
    List.foldl Min.min (a + o) (l.map (fun x => x + o)) = List.foldl Min.min a l + o := by
  induction l generalizing a with
  | nil => rfl
  | cons c cs ih =>
    simp only [List.map_cons, List.foldl_cons]
    rw [min_add_add_right a c o, ih (Min.min a c)]

lemma foldl_max_map_add (o : ℚ) (l : List ℚ) (a : ℚ) :
    List.foldl Max.max (a + o) (l.map (fun x => x + o)) = List.foldl Max.max a l + o := by
  induction l generalizing a with
  | nil => rfl
  | cons c cs ih =>
    simp only [List.map_cons, List.foldl_cons]
    rw [max_add_add_right a c o, ih (Max.max a c)]

lemma foldl_min_head (a c : ℚ) (cs : List ℚ) (h : c ≤ a) :
    List.foldl Min.min a (c :: cs) = List.foldl Min.min c cs := by
  simp only [List.foldl_cons, min_eq_right h]

lemma foldl_max_head (a c : ℚ) (cs : List ℚ) (h : a ≤ c) :
    List.foldl Max.max a (c :: cs) = List.foldl Max.max c cs := by
  simp only [List.foldl_cons, max_eq_right h]

lemma fltMax_big : (2 : ℚ) ^ 127 < fltMax := by
  unfold fltMax
  norm_num

lemma bbFold_eq (l : List Vec3) (bb : BoundingBox) :
    List.foldl BoundingBox.update bb l =
      { bb with
        min := ⟨List.foldl Min.min bb.min.x (l.map Vec3.x),
                List.foldl Min.min bb.min.y (l.map Vec3.y),
                List.foldl Min.min bb.min.z (l.map Vec3.z)⟩
        max := ⟨List.foldl Max.max bb.max.x (l.map Vec3.x),
                List.foldl Max.max bb.max.y (l.map Vec3.y),
                List.foldl Max.max bb.max.z (l.map Vec3.z)⟩ } := by
  induction l generalizing bb with
  | nil => rfl
  | cons c cs ih =>
    simp only [List.foldl_cons, List.map_cons]
    rw [ih (bb.update c)]
    rfl

lemma cornersOf_map_translate (o : Vec3) (ts : List STLTriangle) :
    STLLoader.cornersOf (ts.map (STLLoader.translateTri o)) =
      (STLLoader.cornersOf ts).map (fun v => v + o) := by
  induction ts with
  | nil => rfl
  | cons t ts ih =>
    simp only [List.map_cons, STLLoader.cornersOf, ih]
    rfl

lemma scalar_center (c : ℚ) (cs : List ℚ) (o : ℚ)
    (hb : ∀ x ∈ c :: cs, |x| ≤ 2 ^ 126)
    (ho : o = -((List.foldl Min.min fltMax (c :: cs) +
      List.foldl Max.max (-fltMax) (c :: cs)) / 2)) :
    List.foldl Min.min fltMax ((c :: cs).map (fun x => x + o)) +
      List.foldl Max.max (-fltMax) ((c :: cs).map (fun x => x + o)) = 0 := by
  have hbig := fltMax_big
  have hpow : (2 : ℚ) ^ 126 < 2 ^ 127 := by norm_num
  have hc := hb c (List.mem_cons_self c cs)
  have hcF : c ≤ fltMax := le_trans (le_of_abs_le hc) (by linarith)
  have hcF2 : -fltMax ≤ c := by
    have := neg_abs_le c
    have h2 := abs_le.mp hc
    linarith
  have hm_eq : List.foldl Min.min fltMax (c :: cs) = List.foldl Min.min c cs :=
    foldl_min_head fltMax c cs hcF
  have hM_eq : List.foldl Max.max (-fltMax) (c :: cs) = List.foldl Max.max c cs :=
    foldl_max_head (-fltMax) c cs hcF2
  set m := List.foldl Min.min c cs with hm
  set M := List.foldl Max.max c cs with hM
  have hm_le : m ≤ c := foldl_min_le_init c cs
  have hM_ge : c ≤ M := init_le_foldl_max c cs
  have hm_ge : -(2 ^ 126) ≤ m :=
    le_foldl_min (-(2 ^ 126)) c cs (by have := abs_le.mp hc; linarith)
      (fun x hx => by have := abs_le.mp (hb x (List.mem_cons_of_mem c hx)); linarith)
  have hM_le : M ≤ 2 ^ 126 :=
    foldl_max_le (2 ^ 126) c cs (by have := abs_le.mp hc; linarith)
      (fun x hx => by have := abs_le.mp (hb x (List.mem_cons_of_mem c hx)); linarith)
  have hc_le : c ≤ 2 ^ 126 := (abs_le.mp hc).2
  have ho2 : o = -((m + M) / 2) := by rw [ho, hm_eq, hM_eq]
  have ho_le : o ≤ 2 ^ 126 := by
    rw [ho2]
    linarith
  have ho_ge : -(2 ^ 126) ≤ o := by
    rw [ho2]
    linarith
  have habs1 : c + o ≤ fltMax := by linarith
  have habs2 : -fltMax ≤ c + o := by linarith
  have hmap : (c :: cs).map (fun x => x + o) = (c + o) :: cs.map (fun x => x + o) := by
    simp
  rw [hmap, foldl_min_head fltMax (c + o) (cs.map (fun x => x + o)) habs1,
    foldl_max_head (-fltMax) (c + o) (cs.map (fun x => x + o)) habs2,
    foldl_min_map_add o cs c, foldl_max_map_add o cs c]
  rw [← hm, ← hM]
  linarith

lemma finalize_fold (l : List Vec3) :
    BoundingBox.finalize (List.foldl BoundingBox.update BoundingBox.reset l) =
      { min := ⟨sentinelMin (l.map Vec3.x), sentinelMin (l.map Vec3.y),
          sentinelMin (l.map Vec3.z)⟩
        max := ⟨sentinelMax (l.map Vec3.x), sentinelMax (l.map Vec3.y),
          sentinelMax (l.map Vec3.z)⟩
        center := ⟨1 / 2 * (sentinelMin (l.map Vec3.x) + sentinelMax (l.map Vec3.x)),
          1 / 2 * (sentinelMin (l.map Vec3.y) + sentinelMax (l.map Vec3.y)),
          1 / 2 * (sentinelMin (l.map Vec3.z) + sentinelMax (l.map Vec3.z))⟩
        size := ⟨sentinelMax (l.map Vec3.x) - sentinelMin (l.map Vec3.x),
          sentinelMax (l.map Vec3.y) - sentinelMin (l.map Vec3.y),
          sentinelMax (l.map Vec3.z) - sentinelMin (l.map Vec3.z)⟩
        maxDimension := BoundingBox.max3
          (sentinelMax (l.map Vec3.x) - sentinelMin (l.map Vec3.x))
          (sentinelMax (l.map Vec3.y) - sentinelMin (l.map Vec3.y))
          (sentinelMax (l.map Vec3.z) - sentinelMin (l.map Vec3.z)) } := by
  rw [bbFold_eq]
  rfl

lemma sentinel_valid (v1 : Vec3) (rest : List Vec3)
    (hb : ∀ v ∈ v1 :: rest, |v.x| ≤ 2 ^ 126 ∧ |v.y| ≤ 2 ^ 126 ∧ |v.z| ≤ 2 ^ 126) :
    BoundingBox.isValid
      (BoundingBox.finalize
        (List.foldl BoundingBox.update BoundingBox.reset (v1 :: rest))) = true := by
  have hbig := fltMax_big
  have hpow : (2 : ℚ) ^ 126 < 2 ^ 127 := by norm_num
  have h1 := (hb v1 (List.mem_cons_self v1 rest)).1
  have hminx : sentinelMin ((v1 :: rest).map Vec3.x) ≤ v1.x := by
    refine foldl_min_le_mem fltMax v1.x ((v1 :: rest).map Vec3.x) ?_
    exact List.mem_map_of_mem Vec3.x (List.mem_cons_self v1 rest)
  have hmaxx : v1.x ≤ sentinelMax ((v1 :: rest).map Vec3.x) := by
    refine mem_le_foldl_max (-fltMax) v1.x ((v1 :: rest).map Vec3.x) ?_
    exact List.mem_map_of_mem Vec3.x (List.mem_cons_self v1 rest)
  rw [finalize_fold]
  unfold BoundingBox.isValid
  simp only [Bool.and_eq_true, decide_eq_true_eq]
  have habs := abs_le.mp h1
  constructor
  · exact ne_of_lt (by linarith)
  · exact ne_of_gt (by linarith)

lemma map_x_translate (l : List Vec3) (o : Vec3) :
    (l.map (fun v => v + o)).map Vec3.x = (l.map Vec3.x).map (fun q => q + o.x) := by
  rw [List.map_map, List.map_map]
  rfl

lemma map_y_translate (l : List Vec3) (o : Vec3) :
    (l.map (fun v => v + o)).map Vec3.y = (l.map Vec3.y).map (fun q => q + o.y) := by
  rw [List.map_map, List.map_map]
  rfl

lemma map_z_translate (l : List Vec3) (o : Vec3) :
    (l.map (fun v => v + o)).map Vec3.z = (l.map Vec3.z).map (fun q => q + o.z) := by
  rw [List.map_map, List.map_map]
  rfl

lemma mul_max3 (s a b c : ℚ) (hs : 0 ≤ s) :
    BoundingBox.max3 (s * a) (s * b) (s * c) = s * BoundingBox.max3 a b c := by
  unfold BoundingBox.max3
  rw [← mul_max_of_nonneg a b hs, ← mul_max_of_nonneg (Max.max a b) c hs]

lemma scalar_center_cons (c : ℚ) (cs : List ℚ) (o : ℚ)
    (hb : ∀ x ∈ c :: cs, |x| ≤ 2 ^ 126)
    (ho : o = -(1 / 2 * (sentinelMin (c :: cs) + sentinelMax (c :: cs)))) :
    sentinelMin ((c :: cs).map (fun x => x + o)) +
      sentinelMax ((c :: cs).map (fun x => x + o)) = 0 := by
  refine scalar_center c cs o hb ?_
  rw [ho]
  unfold sentinelMin sentinelMax
  ring

/-- C7.  For a non-empty triangle list within float range, recomputing the
bounding box after `centerModel` yields the center `(0,0,0)` exactly; and
when the computed maximum dimension is positive, after `normalizeModel` the
largest component of the bounding-box size equals exactly 2 (the exact
counterparts of the claim's equalities within float epsilon). -/
theorem claim_C7_center_normalize (ts : List STLTriangle) (hne : ts ≠ [])
    (hb : inFloatRange ts) :
    (STLLoader.calculateBoundingBox (STLLoader.centerModel
        (STLLoader.calculateBoundingBox (stateWith ts)))).boundingBox.center = Vec3.zero ∧
    (0 < (STLLoader.calculateBoundingBox (stateWith ts)).boundingBox.maxDimension →
      BoundingBox.max3
        ((STLLoader.normalizeModel (STLLoader.calculateBoundingBox
          (stateWith ts))).boundingBox.size.x)
        ((STLLoader.normalizeModel (STLLoader.calculateBoundingBox
          (stateWith ts))).boundingBox.size.y)
        ((STLLoader.normalizeModel (STLLoader.calculateBoundingBox
          (stateWith ts))).boundingBox.size.z) = 2) := by
  obtain ⟨t, ts2, rfl⟩ := List.exists_cons_of_ne_nil hne
  have hlb : ∀ v ∈ STLLoader.cornersOf (t :: ts2),
      |v.x| ≤ 2 ^ 126 ∧ |v.y| ≤ 2 ^ 126 ∧ |v.z| ≤ 2 ^ 126 := hb
  have hcons : STLLoader.cornersOf (t :: ts2) =
      t.vertex1 :: (t.vertex2 :: t.vertex3 :: STLLoader.cornersOf ts2) := rfl
  have hvalid : BoundingBox.isValid (BoundingBox.finalize
      (List.foldl BoundingBox.update BoundingBox.reset
        (STLLoader.cornersOf (t :: ts2)))) = true := by
    rw [hcons] at hlb ⊢
    exact sentinel_valid _ _ hlb
  have hbb1 : (STLLoader.calculateBoundingBox (stateWith (t :: ts2))).boundingBox =
      BoundingBox.finalize (List.foldl BoundingBox.update BoundingBox.reset
        (STLLoader.cornersOf (t :: ts2))) := rfl
  constructor
  · have hne2 : ¬ ((STLLoader.calculateBoundingBox
        (stateWith (t :: ts2))).boundingBox.isValid = false) := by
      rw [hbb1, hvalid]
      simp
    have htri : (STLLoader.centerModel (STLLoader.calculateBoundingBox
        (stateWith (t :: ts2)))).triangles =
        (t :: ts2).map (STLLoader.translateTri
          (Vec3.neg (STLLoader.calculateBoundingBox
            (stateWith (t :: ts2))).boundingBox.center)) := by
      unfold STLLoader.centerModel
      rw [if_neg hne2]
      rfl
    have hcomp : (STLLoader.calculateBoundingBox (STLLoader.centerModel
        (STLLoader.calculateBoundingBox (stateWith (t :: ts2))))).boundingBox =
        BoundingBox.finalize (List.foldl BoundingBox.update BoundingBox.reset
          (STLLoader.cornersOf ((STLLoader.centerModel (STLLoader.calculateBoundingBox
            (stateWith (t :: ts2)))).triangles))) := rfl
    rw [hcomp, htri, cornersOf_map_translate]
    set o : Vec3 := Vec3.neg
      (STLLoader.calculateBoundingBox (stateWith (t :: ts2))).boundingBox.center with ho
    have hox : o.x = -(1 / 2 * (sentinelMin ((STLLoader.cornersOf (t :: ts2)).map Vec3.x) +
        sentinelMax ((STLLoader.cornersOf (t :: ts2)).map Vec3.x))) := by
      rw [ho, hbb1, finalize_fold]
      rfl
    have hoy : o.y = -(1 / 2 * (sentinelMin ((STLLoader.cornersOf (t :: ts2)).map Vec3.y) +
        sentinelMax ((STLLoader.cornersOf (t :: ts2)).map Vec3.y))) := by
      rw [ho, hbb1, finalize_fold]
      rfl
    have hoz : o.z = -(1 / 2 * (sentinelMin ((STLLoader.cornersOf (t :: ts2)).map Vec3.z) +
        sentinelMax ((STLLoader.cornersOf (t :: ts2)).map Vec3.z))) := by
      rw [ho, hbb1, finalize_fold]
      rfl
    have hbx : ∀ q ∈ (STLLoader.cornersOf (t :: ts2)).map Vec3.x, |q| ≤ 2 ^ 126 := by
      intro q hq
      obtain ⟨v, hv, rfl⟩ := List.mem_map.mp hq
      exact (hlb v hv).1
    have hby : ∀ q ∈ (STLLoader.cornersOf (t :: ts2)).map Vec3.y, |q| ≤ 2 ^ 126 := by
      intro q hq
      obtain ⟨v, hv, rfl⟩ := List.mem_map.mp hq
      exact (hlb v hv).2.1
    have hbz : ∀ q ∈ (STLLoader.cornersOf (t :: ts2)).map Vec3.z, |q| ≤ 2 ^ 126 := by
      intro q hq
      obtain ⟨v, hv, rfl⟩ := List.mem_map.mp hq
      exact (hlb v hv).2.2
    have hmx : (STLLoader.cornersOf (t :: ts2)).map Vec3.x =
        t.vertex1.x :: (t.vertex2 :: t.vertex3 :: STLLoader.cornersOf ts2).map Vec3.x := by
      rw [hcons, List.map_cons]
    have hmy : (STLLoader.cornersOf (t :: ts2)).map Vec3.y =
        t.vertex1.y :: (t.vertex2 :: t.vertex3 :: STLLoader.cornersOf ts2).map Vec3.y := by
      rw [hcons, List.map_cons]
    have hmz : (STLLoader.cornersOf (t :: ts2)).map Vec3.z =
        t.vertex1.z :: (t.vertex2 :: t.vertex3 :: STLLoader.cornersOf ts2).map Vec3.z := by
      rw [hcons, List.map_cons]
    have hsx := scalar_center_cons t.vertex1.x
      ((t.vertex2 :: t.vertex3 :: STLLoader.cornersOf ts2).map Vec3.x) o.x
      (by rw [← hmx]; exact hbx) (by rw [← hmx]; exact hox)
    have hsy := scalar_center_cons t.vertex1.y
      ((t.vertex2 :: t.vertex3 :: STLLoader.cornersOf ts2).map Vec3.y) o.y
      (by rw [← hmy]; exact hby) (by rw [← hmy]; exact hoy)
    have hsz := scalar_center_cons t.vertex1.z
      ((t.vertex2 :: t.vertex3 :: STLLoader.cornersOf ts2).map Vec3.z) o.z
      (by rw [← hmz]; exact hbz) (by rw [← hmz]; exact hoz)
    rw [finalize_fold]
    show (⟨_, _, _⟩ : Vec3) = Vec3.zero
    rw [map_x_translate, map_y_translate, map_z_translate, hmx, hmy, hmz]
    unfold Vec3.zero
    rw [Vec3.mk.injEq]
    refine ⟨by linarith [hsx], by linarith [hsy], by linarith [hsz]⟩
  · intro hpos
    have hval2 : ¬ ((STLLoader.calculateBoundingBox
          (stateWith (t :: ts2))).boundingBox.isValid = false ∨
        (STLLoader.calculateBoundingBox
          (stateWith (t :: ts2))).boundingBox.maxDimension ≤ 0) := by
      push_neg
      refine ⟨?_, hpos⟩
      rw [hbb1, hvalid]
      simp
    unfold STLLoader.normalizeModel
    rw [if_neg hval2]
    have hscale : 0 ≤ 2 / (STLLoader.calculateBoundingBox
        (stateWith (t :: ts2))).boundingBox.maxDimension :=
      div_nonneg (by norm_num) (le_of_lt hpos)
    show BoundingBox.max3
      (2 / _ * (STLLoader.calculateBoundingBox (stateWith (t :: ts2))).boundingBox.size.x)
      (2 / _ * (STLLoader.calculateBoundingBox (stateWith (t :: ts2))).boundingBox.size.y)
      (2 / _ * (STLLoader.calculateBoundingBox (stateWith (t :: ts2))).boundingBox.size.z) = 2
    rw [mul_max3 _ _ _ _ hscale]
    have hmd : BoundingBox.max3
        ((STLLoader.calculateBoundingBox (stateWith (t :: ts2))).boundingBox.size.x)
        ((STLLoader.calculateBoundingBox (stateWith (t :: ts2))).boundingBox.size.y)
        ((STLLoader.calculateBoundingBox (stateWith (t :: ts2))).boundingBox.size.z) =
        (STLLoader.calculateBoundingBox (stateWith (t :: ts2))).boundingBox.maxDimension := by
      rw [hbb1, finalize_fold]
    rw [hmd]
    exact div_mul_cancel₀ 2 (ne_of_gt hpos)

lemma demoTris_ne_nil : demoTris ≠ [] := by
  unfold demoTris
  exact List.cons_ne_nil demoTri []

lemma demoTris_inRange : inFloatRange demoTris := by
  intro v hv
  have hv2 : v = (⟨0, 0, 0⟩ : Vec3) ∨ v = ⟨1, 0, 0⟩ ∨ v = ⟨0, 1, 0⟩ := by
    simpa [demoTris, demoTri, STLLoader.cornersOf] using hv
  rcases hv2 with h | h | h <;> subst h <;> norm_num

lemma demoTris_maxDim_pos :
    0 < (STLLoader.calculateBoundingBox (stateWith demoTris)).boundingBox.maxDimension := by
  have e : (STLLoader.calculateBoundingBox (stateWith demoTris)).boundingBox =
      BoundingBox.finalize (List.foldl BoundingBox.update BoundingBox.reset
        (STLLoader.cornersOf demoTris)) := rfl
  rw [e, finalize_fold]
  show (0 : ℚ) < BoundingBox.max3 _ _ _
  have hfm : (0 : ℚ) < fltMax := by
    unfold fltMax
    norm_num
  norm_num [demoTris, demoTri, STLLoader.cornersOf, sentinelMin, sentinelMax,
    BoundingBox.max3, min_def, max_def, fltMax]

/-- Witness for C7 at the concrete right triangle, discharging both the
non-emptiness/range hypotheses and the positive-maxDimension hypothesis of
the normalization part. -/
theorem claim_C7_center_normalize_witness :
    (STLLoader.calculateBoundingBox (STLLoader.centerModel
        (STLLoader.calculateBoundingBox (stateWith demoTris)))).boundingBox.center =
      Vec3.zero ∧
    BoundingBox.max3
      ((STLLoader.normalizeModel (STLLoader.calculateBoundingBox
        (stateWith demoTris))).boundingBox.size.x)
      ((STLLoader.normalizeModel (STLLoader.calculateBoundingBox
        (stateWith demoTris))).boundingBox.size.y)
      ((STLLoader.normalizeModel (STLLoader.calculateBoundingBox
        (stateWith demoTris))).boundingBox.size.z) = 2 := by
  have hm := claim_C7_center_normalize demoTris demoTris_ne_nil demoTris_inRange
  exact ⟨hm.1, hm.2 demoTris_maxDim_pos⟩

lemma weldLoop_idx_length (tol : ℚ) (vs : List STLVertex) :
    ∀ (uniq : List STLVertex) (idx : List Nat),
      ((STLLoader.weldLoop tol vs uniq idx).2).length = idx.length + vs.length := by
  induction vs with
  | nil =>
    intro uniq idx
    rfl
  | cons v vs ih =>
    intro uniq idx
    show ((STLLoader.weldLoop tol vs _ (idx ++ [_])).2).length = _
    rw [ih]
    simp only [List.length_append, List.length_cons, List.length_nil]
    omega

lemma buildVertices_length (c : Bool) (ts : List STLTriangle) :
    (STLLoader.buildVertices c ts).length = 3 * ts.length := by
  induction ts with
  | nil => rfl
  | cons t ts ih =>
    show (_ :: _ :: _ :: STLLoader.buildVertices c ts).length = _
    simp only [List.length_cons, ih]
    omega

lemma generateIndices_boundingBox (st : STLLoader.LoaderState) (tol : ℚ) :
    (STLLoader.generateIndices st tol).boundingBox = st.boundingBox := by
  unfold STLLoader.generateIndices
  by_cases h : st.vertices.isEmpty
  · rw [if_pos h]
  · rw [if_neg h]

lemma calcBB_valid (ts : List STLTriangle) (hne : ts ≠ []) (hb : inFloatRange ts) :
    (STLLoader.calculateBoundingBox (stateWith ts)).boundingBox.isValid = true := by
  obtain ⟨t, ts2, rfl⟩ := List.exists_cons_of_ne_nil hne
  have hcons : STLLoader.cornersOf (t :: ts2) =
      t.vertex1 :: (t.vertex2 :: t.vertex3 :: STLLoader.cornersOf ts2) := rfl
  have hlb : ∀ v ∈ t.vertex1 :: (t.vertex2 :: t.vertex3 :: STLLoader.cornersOf ts2),
      |v.x| ≤ 2 ^ 126 ∧ |v.y| ≤ 2 ^ 126 ∧ |v.z| ≤ 2 ^ 126 := by
    rw [← hcons]
    exact hb
  show BoundingBox.isValid (BoundingBox.finalize
    (List.foldl BoundingBox.update BoundingBox.reset
      (STLLoader.cornersOf (t :: ts2)))) = true
  rw [hcons]
  exact sentinel_valid _ _ hlb

/-- C10.  A fresh `STLLoader` has auto-center and merge-vertices enabled,
auto-normalize and recompute-normals disabled, and tolerance `1e-6`; with
these defaults, post-processing any non-empty in-range triangle list leaves
the bounding-box center at the origin and produces the welded index buffer
with one index per triangle corner. -/
theorem claim_C10_default_pipeline :
    STLLoader.initialConfig.autoCenter = true ∧
    STLLoader.initialConfig.mergeVertices = true ∧
    STLLoader.initialConfig.autoNormalize = false ∧
    STLLoader.initialConfig.calculateNormals = false ∧
    STLLoader.initialConfig.vertexTolerance = 1 / 10 ^ 6 ∧
    ∀ ts : List STLTriangle, ts ≠ [] → inFloatRange ts →
      ((STLLoader.processTriangles STLLoader.initialConfig
          (stateWith ts)).boundingBox.center = Vec3.zero ∧
        (STLLoader.processTriangles STLLoader.initialConfig
          (stateWith ts)).indices.length = 3 * ts.length) := by
  refine ⟨rfl, rfl, rfl, rfl, rfl, ?_⟩
  intro ts hne hb
  have hvalid := calcBB_valid ts hne hb
  obtain ⟨t, ts2, rfl⟩ := List.exists_cons_of_ne_nil hne
  have hproc : STLLoader.processTriangles STLLoader.initialConfig (stateWith (t :: ts2)) =
      STLLoader.generateIndices
        (STLLoader.generateVertexBuffer STLLoader.initialConfig
          (STLLoader.centerModel (STLLoader.calculateBoundingBox (stateWith (t :: ts2)))))
        STLLoader.initialConfig.vertexTolerance := rfl
  have hne2 : ¬ ((STLLoader.calculateBoundingBox
      (stateWith (t :: ts2))).boundingBox.isValid = false) := by
    rw [hvalid]
    simp
  have htri : (STLLoader.centerModel (STLLoader.calculateBoundingBox
      (stateWith (t :: ts2)))).triangles =
      (t :: ts2).map (STLLoader.translateTri
        (Vec3.neg (STLLoader.calculateBoundingBox
          (stateWith (t :: ts2))).boundingBox.center)) := by
    unfold STLLoader.centerModel
    rw [if_neg hne2]
    rfl
  have hcenter : (STLLoader.centerModel (STLLoader.calculateBoundingBox
      (stateWith (t :: ts2)))).boundingBox.center = Vec3.zero := by
    unfold STLLoader.centerModel
    rw [if_neg hne2]
  have hverts : (STLLoader.generateVertexBuffer STLLoader.initialConfig
      (STLLoader.centerModel (STLLoader.calculateBoundingBox
        (stateWith (t :: ts2))))).vertices =
      STLLoader.buildVertices false ((STLLoader.centerModel
        (STLLoader.calculateBoundingBox (stateWith (t :: ts2)))).triangles) := rfl
  have hvne : ¬ ((STLLoader.generateVertexBuffer STLLoader.initialConfig
      (STLLoader.centerModel (STLLoader.calculateBoundingBox
        (stateWith (t :: ts2))))).vertices.isEmpty = true) := by
    rw [hverts, htri]
    show ¬ ((STLLoader.buildVertices false (STLLoader.translateTri _ t :: _)).isEmpty = true)
    intro hcontra
    have hlen := buildVertices_length false
      (STLLoader.translateTri (Vec3.neg (STLLoader.calculateBoundingBox
        (stateWith (t :: ts2))).boundingBox.center) t ::
        ts2.map (STLLoader.translateTri (Vec3.neg (STLLoader.calculateBoundingBox
          (stateWith (t :: ts2))).boundingBox.center)))
    rw [List.isEmpty_iff_length_eq_zero] at hcontra
    rw [hcontra] at hlen
    simp at hlen
  rw [hproc]
  constructor
  · rw [generateIndices_boundingBox]
    exact hcenter
  · unfold STLLoader.generateIndices
    rw [if_neg hvne]
    show ((STLLoader.generateIndicesCore _ _).2).length = _
    unfold STLLoader.generateIndicesCore
    rw [weldLoop_idx_length]
    rw [hverts, htri, buildVertices_length]
    simp

/-- Witness for C10 at the concrete right triangle. -/
theorem claim_C10_default_pipeline_witness :
    (STLLoader.processTriangles STLLoader.initialConfig
        (stateWith demoTris)).boundingBox.center = Vec3.zero ∧
      (STLLoader.processTriangles STLLoader.initialConfig
        (stateWith demoTris)).indices.length = 3 * demoTris.length :=
  claim_C10_default_pipeline.2.2.2.2.2 demoTris demoTris_ne_nil demoTris_inRange

/-- C1 (code bug).  The file "solid x\nendsolid\n" decodes to zero facets:
`loadASCIISTL` returns EmptyFile and stores its descriptive message, but
`loadFile`'s final `if (result != Success) clear()` erases the message, so
`getErrorString()` reports the empty string for this non-Success load. -/
theorem claim_C1_error_string_cleared :
    (STLLoader.loadFile STLLoader.initialConfig demoAsciiFile).1 = LoadResult.EmptyFile ∧
      (STLLoader.loadASCIISTL demoAsciiFile.textLines).2.2 = STLLoader.msgNoValidAscii ∧
      STLLoader.msgNoValidAscii ≠ "" ∧
      (STLLoader.loadFile STLLoader.initialConfig demoAsciiFile).2.errorString = "" := by
  refine ⟨by decide, by decide, by decide, by decide⟩

/-- Counterexample to C2 as stated: the N=0 binary-layout file exists and
is readable, yet `loadFile` returns InvalidFormat, not EmptyFile — the
sniffer refuses `N = 0` so the binary decoder is never entered, and the
zero-header first line does not start with "solid". -/
theorem claim_C2_counterexample :
    (STLLoader.loadFile STLLoader.initialConfig fileN0).1 = LoadResult.InvalidFormat ∧
      (STLLoader.loadFile STLLoader.initialConfig fileN0).1 ≠ LoadResult.EmptyFile := by
  refine ⟨by decide, by decide⟩

/-- C2 as amended.  Any existing readable file whose declared count is 0 or
at least the 50,000,000 ceiling and whose first line does not pass the
"solid" test is classified Unknown by the sniffer, so `loadFile` returns
InvalidFormat; the EmptyFile (N=0) and CorruptedFile (unreasonable N)
outcomes are produced only by `loadBinarySTL` itself, which `loadFile`
reaches solely for files the sniffer already accepted. -/
theorem claim_C2_amended (bs : List Nat) (lines : List (List Tok)) (hne : bs ≠ [])
    (hcount : readU32LE bs 80 = 0 ∨ 50000000 ≤ readU32LE bs 80)
    (hascii : STLLoader.isASCIISTL bs = false) :
    (STLLoader.loadFile STLLoader.initialConfig ⟨true, true, bs, lines⟩).1 =
        LoadResult.InvalidFormat ∧
      (STLLoader.loadBinarySTL fileN0Bytes).1 = LoadResult.EmptyFile ∧
      (STLLoader.loadBinarySTL fileN100MBytes).1 = LoadResult.CorruptedFile := by
  refine ⟨?_, by decide, by decide⟩
  have hlen : ¬ (bs.length = 0) := fun h => hne (List.length_eq_zero.mp h)
  have hbin : STLLoader.isBinarySTL bs = false := by
    cases h : STLLoader.isBinarySTL bs
    · rfl
    · exfalso
      have h2 := (isBinarySTL_iff bs).mp h
      omega
  have hfmt : STLLoader.detectFormat bs = STLFormat.Unknown := by
    unfold STLLoader.detectFormat
    rw [hbin, hascii]
    simp
  unfold STLLoader.loadFile
  simp [hlen, hfmt]

/-- Witness for C2's amended statement, at the concrete N=0 file. -/
theorem claim_C2_amended_witness :
    (STLLoader.loadFile STLLoader.initialConfig
        ⟨true, true, fileN0Bytes, fileN0.textLines⟩).1 = LoadResult.InvalidFormat :=
  (claim_C2_amended fileN0Bytes fileN0.textLines (by decide)
    (Or.inl (by decide)) (by decide)).1

/-- C3 (code bug).  On `content184`, skipping record 0 for its NaN normal
advances the stream by only the 12 normal bytes instead of the full
50-byte record, so the decoder then misreads bytes 96..145 as the second
record (all zeros here, a degenerate triangle it drops) and returns
EmptyFile; the spec-aligned decoder, which always consumes 50 bytes per
record, skips record 0 and decodes record 1 to the one well-formed
triangle with Success. -/
theorem claim_C3_record_misalignment :
    STLLoader.loadBinarySTL content184 =
        (LoadResult.EmptyFile, [], STLLoader.msgNoValidTriangles) ∧
      STLLoader.alignedLoadBinarySTL content184 =
        (LoadResult.Success, [⟨⟨0, 0, 0⟩, ⟨0, 0, 0⟩, ⟨1, 0, 0⟩, ⟨0, 1, 0⟩⟩]) := by
  constructor
  · with_unfolding_all rfl
  · with_unfolding_all rfl

/-- Counterexample to C6 as stated: on `facet normal bad 1 2` the source
zeroes all three normal components (the stored normal is `(0,0,0)`),
whereas per-component substitution would keep the two successfully parsed
components and store `(0,1,2)`. -/
theorem claim_C6_counterexample :
    STLLoader.loadASCIISTL c6Lines =
        (LoadResult.Success, [⟨⟨0, 0, 0⟩, ⟨0, 0, 0⟩, ⟨1, 0, 0⟩, ⟨0, 1, 0⟩⟩], "") ∧
      (⟨0, 0, 0⟩ : Vec3) ≠ ⟨0, 1, 2⟩ := by
  constructor
  · with_unfolding_all rfl
  · intro h
    have h2 := congrArg Vec3.y h
    norm_num at h2

/-- C6 as amended.  In the ASCII decoder, a parse failure of any
`facet normal` component is non-fatal but substitutes 0 for all three
components (successfully parsed components are not kept); when all three
parse, NaN/Inf components are clamped to 0 individually; whereas in a
`vertex` line a parse failure of any coordinate, or a NaN/Inf value in any
coordinate, aborts with CorruptedFile. -/
theorem claim_C6_amended_normal_vs_vertex
    (st : STLLoader.AscState) (t0 tn c1 c2 c3 : Tok) (rest : List Tok) :
    (st.inFacet = false →
      strStartsWith t0.text STLLoader.hashStr = false →
      strLower t0.text = STLLoader.kwFacet →
      tn.text = STLLoader.kwNormal →
      ((c1.ok = false ∨ c2.ok = false ∨ c3.ok = false →
        STLLoader.processLine st (t0 :: tn :: c1 :: c2 :: c3 :: rest) =
          STLLoader.AscStep.next
            { st with normal := Vec3.zero, inFacet := true, vertexCount := 0 }) ∧
        (c1.ok = true → c2.ok = true → c3.ok = true →
          STLLoader.processLine st (t0 :: tn :: c1 :: c2 :: c3 :: rest) =
            STLLoader.AscStep.next
              { st with
                normal := ⟨STLLoader.clampF c1.val, STLLoader.clampF c2.val,
                  STLLoader.clampF c3.val⟩
                inFacet := true, vertexCount := 0 }))) ∧
    (st.inLoop = true →
      strStartsWith t0.text STLLoader.hashStr = false →
      strLower t0.text = STLLoader.kwVertex →
      ((c1.ok = false ∨ c2.ok = false ∨ c3.ok = false →
        STLLoader.processLine st (t0 :: c1 :: c2 :: c3 :: rest) =
          STLLoader.AscStep.err LoadResult.CorruptedFile STLLoader.msgVertexUnreadable) ∧
        (c1.ok = true → c2.ok = true → c3.ok = true →
          (c1.val.bad = true ∨ c2.val.bad = true ∨ c3.val.bad = true) →
          STLLoader.processLine st (t0 :: c1 :: c2 :: c3 :: rest) =
            STLLoader.AscStep.err LoadResult.CorruptedFile
              STLLoader.msgVertexCorrupted))) := by
  constructor
  · intro hf hhash hkw htn
    have e0 : (tn :: c1 :: c2 :: c3 :: rest).getD 0 ⟨"", none⟩ = tn := rfl
    have e1 : (tn :: c1 :: c2 :: c3 :: rest).getD 1 ⟨"", none⟩ = c1 := rfl
    have e2 : (tn :: c1 :: c2 :: c3 :: rest).getD 2 ⟨"", none⟩ = c2 := rfl
    have e3 : (tn :: c1 :: c2 :: c3 :: rest).getD 3 ⟨"", none⟩ = c3 := rfl
    have hlen : 4 ≤ (tn :: c1 :: c2 :: c3 :: rest).length := by
      simp only [List.length_cons]
      omega
    constructor
    · intro hfail
      simp only [STLLoader.processLine, hhash, Bool.false_eq_true, if_false,
        e0, e1, e2, e3, hkw]
      rw [if_pos ⟨trivial, hlen, htn⟩, if_neg (by rw [hf]; simp)]
      rw [if_pos hfail]
    · intro h1 h2 h3
      simp only [STLLoader.processLine, hhash, Bool.false_eq_true, if_false,
        e0, e1, e2, e3, hkw]
      rw [if_pos ⟨trivial, hlen, htn⟩, if_neg (by rw [hf]; simp)]
      rw [if_neg (by rw [h1, h2, h3]; simp)]
  · intro hl hhash hkw
    have e0 : (c1 :: c2 :: c3 :: rest).getD 0 ⟨"", none⟩ = c1 := rfl
    have e1 : (c1 :: c2 :: c3 :: rest).getD 1 ⟨"", none⟩ = c2 := rfl
    have e2 : (c1 :: c2 :: c3 :: rest).getD 2 ⟨"", none⟩ = c3 := rfl
    have hlen : 3 ≤ (c1 :: c2 :: c3 :: rest).length := by
      simp only [List.length_cons]
      omega
    constructor
    · intro hfail
      simp only [STLLoader.processLine, hhash, Bool.false_eq_true, if_false,
        e0, e1, e2, hkw]
      rw [if_neg (fun hcon => absurd hcon.1 (by decide)),
        if_neg (fun hcon => absurd hcon.1 (by decide)),
        if_pos ⟨trivial, hlen⟩, if_neg (by rw [hl]; simp)]
      rw [if_pos hfail]
    · intro h1 h2 h3 hbad
      simp only [STLLoader.processLine, hhash, Bool.false_eq_true, if_false,
        e0, e1, e2, hkw]
      rw [if_neg (fun hcon => absurd hcon.1 (by decide)),
        if_neg (fun hcon => absurd hcon.1 (by decide)),
        if_pos ⟨trivial, hlen⟩, if_neg (by rw [hl]; simp)]
      rw [if_neg (by rw [h1, h2, h3]; simp), if_pos hbad]

/-- Witness for C6's amended statement at concrete lines: a failing normal
component zeroes the whole normal, a NaN normal component is clamped to 0
with the others kept, a failing vertex coordinate is CorruptedFile, and an
infinite vertex coordinate is CorruptedFile. -/
theorem claim_C6_amended_normal_vs_vertex_witness :
    STLLoader.processLine STLLoader.ascInit
        [tokOf STLLoader.kwFacet, tokOf STLLoader.kwNormal, tokOf badStr,
          tokNum oneStr 1, tokNum twoStr 2] =
      STLLoader.AscStep.next { STLLoader.ascInit with
        normal := Vec3.zero, inFacet := true, vertexCount := 0 } ∧
    STLLoader.processLine STLLoader.ascInit
        [tokOf STLLoader.kwFacet, tokOf STLLoader.kwNormal, tokNum oneStr 1,
          tokNan, tokNum twoStr 2] =
      STLLoader.AscStep.next { STLLoader.ascInit with
        normal := ⟨1, 0, 2⟩, inFacet := true, vertexCount := 0 } ∧
    STLLoader.processLine { STLLoader.ascInit with inFacet := true, inLoop := true }
        [tokOf STLLoader.kwVertex, tokOf badStr, tokNum oneStr 1, tokNum twoStr 2] =
      STLLoader.AscStep.err LoadResult.CorruptedFile STLLoader.msgVertexUnreadable ∧
    STLLoader.processLine { STLLoader.ascInit with inFacet := true, inLoop := true }
        [tokOf STLLoader.kwVertex, tokInf, tokNum oneStr 1, tokNum twoStr 2] =
      STLLoader.AscStep.err LoadResult.CorruptedFile STLLoader.msgVertexCorrupted := by
  have ha := (claim_C6_amended_normal_vs_vertex STLLoader.ascInit
    (tokOf STLLoader.kwFacet) (tokOf STLLoader.kwNormal) (tokOf badStr)
    (tokNum oneStr 1) (tokNum twoStr 2) []).1 rfl (by decide) (by decide) rfl
  have hb := (claim_C6_amended_normal_vs_vertex STLLoader.ascInit
    (tokOf STLLoader.kwFacet) (tokOf STLLoader.kwNormal) (tokNum oneStr 1)
    tokNan (tokNum twoStr 2) []).1 rfl (by decide) (by decide) rfl
  have hc := (claim_C6_amended_normal_vs_vertex
    { STLLoader.ascInit with inFacet := true, inLoop := true }
    (tokOf STLLoader.kwVertex) (tokOf STLLoader.kwVertex) (tokOf badStr)
    (tokNum oneStr 1) (tokNum twoStr 2) []).2 rfl (by decide) (by decide)
  have hd := (claim_C6_amended_normal_vs_vertex
    { STLLoader.ascInit with inFacet := true, inLoop := true }
    (tokOf STLLoader.kwVertex) (tokOf STLLoader.kwVertex) tokInf
    (tokNum oneStr 1) (tokNum twoStr 2) []).2 rfl (by decide) (by decide)
  refine ⟨ha.1 (Or.inl rfl), ?_, hc.1 (Or.inl rfl), hd.2 rfl rfl rfl (Or.inl rfl)⟩
  have hb2 := hb.2 rfl rfl rfl
  rw [hb2]
  have hcl : (⟨STLLoader.clampF (tokNum oneStr 1).val, STLLoader.clampF tokNan.val,
      STLLoader.clampF (tokNum twoStr 2).val⟩ : Vec3) = ⟨1, 0, 2⟩ := by decide
  rw [hcl]
